import Mathlib

/-!
Verification of the data-collection scripts of this repository against their
specification.  The relevant routines are shallowly embedded:

* `multi_crypto_tracker.py`: the per-symbol threshold table `PRICE_THRESHOLDS`,
  the alert classification of `save_threshold_alerts`, the response parsing
  loop of `get_multiple_crypto_prices`, the sample accumulation of
  `get_crypto_samples_over_time`, and the deduplicate-sort-save logic of
  `main`.  Prices are modelled as rationals, timestamps as strings, and one
  HTTP round as an optional payload (`none` = any request failure caught by
  the enclosing `try`/`except`).
* `vietnam_weather_data.py`: the derived wind index and the 16-point compass
  direction name.  `pandas`/`numpy` rounding to one decimal is round half to
  even, modelled exactly on rationals.
* `enhanced_scraper.py` / `enhanced_scraper_v2.py`: the `simple_summarize`
  routine (the two copies are textually identical).
-/

/-! ### Data model of multi_crypto_tracker.py -/

/-- Per-symbol alert band, from the `PRICE_THRESHOLDS` dictionary entries
(`high`, `low`). -/
structure Bounds where
  high : ℚ
  low : ℚ
deriving DecidableEq

/-- The `alert_type` values produced by `save_threshold_alerts`. -/
inductive AlertType where
  | NORMAL
  | HIGH_ALERT
  | LOW_ALERT
deriving DecidableEq

/-- The module-level `PRICE_THRESHOLDS` dictionary (lines 8-21). -/
def PRICE_THRESHOLDS : List (String × Bounds) :=
  [("BTC", { high := 113000, low := 110000 }),
   ("ETH", { high := 4100, low := 4000 }),
   ("DOGE", { high := 0.23, low := 0.20 })]

/-- Threshold classification of `save_threshold_alerts` (lines 187-194):
a symbol not in the table yields no alert record; otherwise
`price > high` gives HIGH_ALERT, `elif price < low` gives LOW_ALERT,
else NORMAL.  `check_price_thresholds` (lines 23-37) has the same
if/elif/else structure, producing message strings instead. -/
def classifyAlert (tbl : List (String × Bounds)) (symbol : String) (price : ℚ) :
    Option AlertType :=
  match tbl.lookup symbol with
  | none => none
  | some b =>
    some (if b.high < price then AlertType.HIGH_ALERT
          else if price < b.low then AlertType.LOW_ALERT
          else AlertType.NORMAL)

/-- One value of the JSON price payload: the object keyed by a crypto id.
`usd = none` models an object lacking the `"usd"` key, in which case
`data[crypto_id]["usd"]` raises and the whole round is aborted. -/
structure PriceEntry where
  usd : Option ℚ
deriving DecidableEq

/-- The JSON payload of one batched price request, keyed by crypto id. -/
abbrev Payload := List (String × PriceEntry)

/-- One collected price record (`time`, `symbol`, `usd_price`), as appended
to `crypto_data` in `get_multiple_crypto_prices` (lines 86-90). -/
structure PriceRec where
  time : String
  symbol : String
  usd_price : ℚ
deriving DecidableEq

/-- The `crypto_map` dictionary of `get_multiple_crypto_prices` (lines 75-79). -/
def crypto_map : List (String × String) :=
  [("bitcoin", "BTC"), ("ethereum", "ETH"), ("dogecoin", "DOGE")]

/-- `crypto_map.get(crypto_id, crypto_id.upper())` (line 84). -/
def symbolOf (cryptoId : String) : String :=
  (crypto_map.lookup cryptoId).getD cryptoId.toUpper

/-- The parsing loop of `get_multiple_crypto_prices` (lines 81-96) applied to
an already-decoded payload: for each requested id present in the payload,
one record is appended; an entry without a `"usd"` key raises, which the
enclosing `except` turns into `None` (here `none`) for the whole round. -/
def processRound (now : String) (data : Payload) : List String → Option (List PriceRec)
  | [] => some []
  | cid :: rest =>
    match data.lookup cid with
    | none => processRound now data rest
    | some entry =>
      match entry.usd with
      | none => none
      | some p =>
        (processRound now data rest).map
          (fun recs => { time := now, symbol := symbolOf cid, usd_price := p } :: recs)

/-- The accumulation loop of `get_crypto_samples_over_time` (lines 119-129):
each round contributes its records when truthy (`if crypto_data:`), and a
failed round (`None`) contributes nothing. -/
def collectSamples (rounds : List (Option (List PriceRec))) : List PriceRec :=
  rounds.foldl
    (fun acc roundResult =>
      match roundResult with
      | some ds => if ds.isEmpty then acc else acc ++ ds
      | none => acc)
    []

/-- `get_crypto_samples_over_time` (lines 131-137): returns the collected
records, or `None` when nothing was collected. -/
def get_crypto_samples_over_time (rounds : List (Option (List PriceRec))) :
    Option (List PriceRec) :=
  let all := collectSamples rounds
  if all.isEmpty then none else some all

/-- The sort/dedup key: the `['time', 'symbol']` column pair of `main`
(line 252). -/
def recKey (r : PriceRec) : String × String := (r.time, r.symbol)

/-- `drop_duplicates(subset=['time', 'symbol'])` keeps the first record for
each key, in order; modelled with an accumulator of already-seen keys. -/
def dropDupAux (seen : List (String × String)) : List PriceRec → List PriceRec
  | [] => []
  | r :: rs =>
    if recKey r ∈ seen then dropDupAux seen rs
    else r :: dropDupAux (recKey r :: seen) rs

/-- `final_df.drop_duplicates(subset=['time', 'symbol'])` (line 252). -/
def drop_duplicates (l : List PriceRec) : List PriceRec := dropDupAux [] l

/-- Ascending lexicographic comparison on the `(time, symbol)` key used by
`sort_values(['time', 'symbol'])`. -/
def recLE (a b : PriceRec) : Bool :=
  decide (a.time < b.time) || (a.time == b.time && decide (a.symbol ≤ b.symbol))

/-- `sort_values(['time', 'symbol'])` (line 252): sorts ascending by the
key; after deduplication keys are distinct, so any correct sort yields the
same list. -/
def sort_values (l : List PriceRec) : List PriceRec := l.mergeSort recLE

/-- The dedup-then-sort step of `main` (line 252). -/
def dedupAndSort (l : List PriceRec) : List PriceRec := sort_values (drop_duplicates l)

/-- Outcome of one run of `main`: which output files were written and whether
the run completed successfully (line 247 `if all_crypto_data:` and the
`else` branch at lines 318-320 returning `None`, reported as failure by the
`__main__` block). -/
structure RunOutcome where
  files : List String
  success : Bool
deriving DecidableEq

/-- `save_threshold_alerts` (lines 178-217) writes the alerts CSV only when
at least one record has a symbol with configured thresholds. -/
def alertFiles (records : List PriceRec) : List String :=
  if (records.filter (fun r => (PRICE_THRESHOLDS.lookup r.symbol).isSome)).isEmpty
  then [] else ["multi_crypto_tracker_alerts.csv"]

/-- `all_crypto_data` as assembled by `main` (lines 233-245): the current
price round (`if current_prices:`) followed by the records returned by
`get_crypto_samples_over_time` (skipped when it returned `None`). -/
def mainCollected (currentPrices : Option (List PriceRec))
    (sampleRounds : List (Option (List PriceRec))) : List PriceRec :=
  (match currentPrices with
   | some d => if d.isEmpty then [] else d
   | none => []) ++
  (match get_crypto_samples_over_time sampleRounds with
   | some d => d
   | none => [])

/-- The output branch of `main` (lines 247-320): with at least one record it
deduplicates, sorts, writes the three data files plus the conditional alerts
file and succeeds; with zero records it writes nothing and fails. -/
def mainRun (currentPrices : Option (List PriceRec))
    (sampleRounds : List (Option (List PriceRec))) : RunOutcome :=
  let allData := mainCollected currentPrices sampleRounds
  if allData.isEmpty then { files := [], success := false }
  else
    { files := ["multi_crypto_tracker.csv", "multi_crypto_tracker_detailed.csv",
                "multi_crypto_tracker_raw.json"] ++ alertFiles (dedupAndSort allData),
      success := true }

/-! ### Data model of vietnam_weather_data.py -/

/-- Round half to even on rationals: the rounding mode of numpy and pandas
`round` (and of Python 3 builtin `round`). -/
def roundHalfEven (x : ℚ) : ℤ :=
  if x - ⌊x⌋ = 1/2 then (if ⌊x⌋ % 2 = 0 then ⌊x⌋ else ⌊x⌋ + 1)
  else ⌊x + 1/2⌋

/-- pandas `Series.round(1)`: round to one decimal place, half to even. -/
def pandasRound1 (x : ℚ) : ℚ := (roundHalfEven (x * 10) : ℚ) / 10

/-- pandas `Series.clip(lo, hi)`. -/
def clip (lo hi x : ℚ) : ℚ := max lo (min hi x)

/-- The hourly wind index of `get_weather_data` (lines 42-44); the daily wind
index (lines 70-72) applies the same formula: combine speed and gusts,
scale, round to one decimal, then clip to [0, 100]. -/
def wind_index (speed gusts : ℚ) : ℚ :=
  clip 0 100 (pandasRound1 ((speed * 0.7 + gusts * 0.3) / 50 * 100))

/-- The wind index as the spec words it: clip first, then round. -/
def windIndexSpec (speed gusts : ℚ) : ℚ :=
  pandasRound1 (clip 0 100 ((speed * 0.7 + gusts * 0.3) / 50 * 100))

/-- The 16-entry compass table of `get_wind_direction_name` (lines 50-51). -/
def directions : List String :=
  ["N", "NNE", "NE", "ENE", "E", "ESE", "SE", "SSE",
   "S", "SSW", "SW", "WSW", "W", "WNW", "NW", "NNW"]

/-- `get_wind_direction_name` (lines 47-53) on a non-NaN argument:
the table entry at index `round(degrees / 22.5) % 16` (Python round is half
to even, Python % on a positive modulus is nonnegative, as is Int.emod). -/
def get_wind_direction_name (degrees : ℚ) : String :=
  directions.getD ((roundHalfEven (degrees / 22.5)) % 16).toNat ""

/-! ### Data model of enhanced_scraper.py and enhanced_scraper_v2.py -/

/-- The sentence separator class of the regex [.!?]+ used on line 56. -/
def isSentenceSep (c : Char) : Bool := c = '.' || c = '!' || c = '?'

/-- Python str.strip() whitespace (the ASCII whitespace characters). -/
def isPySpace (c : Char) : Bool :=
  c = ' ' || c = '\t' || c = '\n' || c = '\r' || c = '\x0b' || c = '\x0c'

/-- Python str.strip(): drop leading and trailing whitespace. -/
def pyStrip (l : List Char) : List Char :=
  ((l.dropWhile isPySpace).reverse.dropWhile isPySpace).reverse

/-- Lines 56-57: split on the separator class, strip each token, keep the
truthy ones.  The regex quantifier + makes re.split cut at each maximal
separator run; `List.splitOnP` cuts at each single separator, producing
extra empty tokens between consecutive separators, which the nonempty
filter removes, so the composition matches the regex behaviour. -/
def sentencesOf (text : List Char) : List (List Char) :=
  ((text.splitOnP isSentenceSep).map pyStrip).filter (fun s => s ≠ [])

/-- Lines 60-61: join the first `maxSentences` sentences with ". ". -/
def joinedSummary (text : List Char) (maxSentences : Nat) : List Char :=
  List.intercalate (". ".toList) ((sentencesOf text).take maxSentences)

/-- `simple_summarize` (lines 50-67, identical in both scraper files); text
is a list of characters, matching Python string length and slicing.  The
caller always uses the default max_sentences=3. -/
def simple_summarize (text : List Char) (maxSentences : Nat) : List Char :=
  if text = [] then []
  else
    let summary := joinedSummary text maxSentences
    if 300 < summary.length then summary.take 297 ++ "...".toList
    else summary

/-! ### Claim theorems: threshold classification -/

/-- A successful association-list lookup locates a matching pair in the list. -/
theorem lookup_mem {β : Type} {l : List (String × β)} {a : String} {b : β}
    (h : l.lookup a = some b) : (a, b) ∈ l := by
  induction l with
  | nil => simp [List.lookup] at h
  | cons p rest ih =>
    rw [List.lookup] at h
    cases hbe : a == p.1
    · rw [hbe] at h
      simp only [] at h
      exact List.mem_cons_of_mem _ (ih h)
    · rw [hbe] at h
      simp only [] at h
      have ha : a = p.1 := by simpa using hbe
      have hb2 : b = p.2 := by injection h with h2; exact h2.symm
      rw [ha, hb2]
      exact List.mem_cons_self _ _

/-- C1: Threshold classification is a pure function of symbol, price, and the
configured per-symbol bounds: for every symbol present in `PRICE_THRESHOLDS`
and every price, price strictly above the symbol's high bound classifies as
HIGH_ALERT, strictly below the low bound as LOW_ALERT, otherwise NORMAL; a
symbol absent from the table is never classified. -/
theorem C1_threshold_classification (sym : String) (p : ℚ) :
    (∀ b : Bounds, PRICE_THRESHOLDS.lookup sym = some b →
      ((b.high < p → classifyAlert PRICE_THRESHOLDS sym p = some AlertType.HIGH_ALERT) ∧
       (p < b.low → classifyAlert PRICE_THRESHOLDS sym p = some AlertType.LOW_ALERT) ∧
       (b.low ≤ p → p ≤ b.high →
         classifyAlert PRICE_THRESHOLDS sym p = some AlertType.NORMAL))) ∧
    (PRICE_THRESHOLDS.lookup sym = none → classifyAlert PRICE_THRESHOLDS sym p = none) := by
  constructor
  · intro b hb
    have hmem : (sym, b) ∈ PRICE_THRESHOLDS := lookup_mem hb
    have hlh : b.low ≤ b.high := by
      simp only [PRICE_THRESHOLDS, List.mem_cons, List.not_mem_nil, or_false] at hmem
      rcases hmem with h | h | h <;>
        (injection h with h1 h2) <;> (rw [h2]) <;> norm_num
    refine ⟨fun hhi => ?_, fun hlo => ?_, fun h1 h2 => ?_⟩
    · simp [classifyAlert, hb, if_pos hhi]
    · have hnhi : ¬ b.high < p := by
        intro hc
        exact absurd (lt_trans hlo (lt_of_le_of_lt hlh hc)) (lt_irrefl p)
      simp [classifyAlert, hb, if_neg hnhi, if_pos hlo]
    · have hnhi : ¬ b.high < p := not_lt_of_ge h2
      have hnlo : ¬ p < b.low := not_lt_of_ge h1
      simp [classifyAlert, hb, if_neg hnhi, if_neg hnlo]
  · intro hn
    simp [classifyAlert, hn]

/-- Concrete instantiation of C1: the BTC band (110000, 113000) classifies
114000 as HIGH_ALERT, 109000 as LOW_ALERT, 111000 as NORMAL, and the
unconfigured symbol XRP is never classified. -/
theorem C1_threshold_classification_witness :
    classifyAlert PRICE_THRESHOLDS "BTC" 114000 = some AlertType.HIGH_ALERT ∧
    classifyAlert PRICE_THRESHOLDS "BTC" 109000 = some AlertType.LOW_ALERT ∧
    classifyAlert PRICE_THRESHOLDS "BTC" 111000 = some AlertType.NORMAL ∧
    classifyAlert PRICE_THRESHOLDS "XRP" 1 = none :=
  ⟨((C1_threshold_classification "BTC" 114000).1
      { high := 113000, low := 110000 } (by decide)).1 (by norm_num),
   (((C1_threshold_classification "BTC" 109000).1
      { high := 113000, low := 110000 } (by decide)).2).1 (by norm_num),
   (((C1_threshold_classification "BTC" 111000).1
      { high := 113000, low := 110000 } (by decide)).2).2 (by norm_num) (by norm_num),
   (C1_threshold_classification "XRP" 1).2 (by decide)⟩

/-- C3: with the price API response consisting exactly of
bitcoin ↦ usd 114000, one poll round over the default symbol list produces
exactly one record (for BTC at 114000), the configured BTC bounds are
low 110000 / high 113000, and that record classifies as HIGH_ALERT. -/
theorem C3_single_round_high_alert (now : String) :
    processRound now [("bitcoin", { usd := some 114000 })]
        ["bitcoin", "ethereum", "dogecoin"]
      = some [{ time := now, symbol := "BTC", usd_price := 114000 }] ∧
    PRICE_THRESHOLDS.lookup "BTC" = some { high := 113000, low := 110000 } ∧
    classifyAlert PRICE_THRESHOLDS "BTC" 114000 = some AlertType.HIGH_ALERT := by
  refine ⟨?_, by decide, by decide⟩
  rfl

/-! ### Claim theorems: deduplication and sorting -/

/-- `recLE` is transitive. -/
theorem recLE_trans (a b c : PriceRec) (h1 : recLE a b = true) (h2 : recLE b c = true) :
    recLE a c = true := by
  simp only [recLE, Bool.or_eq_true, Bool.and_eq_true, decide_eq_true_eq, beq_iff_eq] at *
  rcases h1 with h1 | ⟨h1e, h1s⟩ <;> rcases h2 with h2 | ⟨h2e, h2s⟩
  · exact Or.inl (lt_trans h1 h2)
  · exact Or.inl (h2e ▸ h1)
  · exact Or.inl (h1e ▸ h2)
  · exact Or.inr ⟨h1e.trans h2e, le_trans h1s h2s⟩

/-- `recLE` is total. -/
theorem recLE_total (a b : PriceRec) : (recLE a b || recLE b a) = true := by
  simp only [recLE, Bool.or_eq_true, Bool.and_eq_true, decide_eq_true_eq, beq_iff_eq]
  rcases lt_trichotomy a.time b.time with h | h | h
  · exact Or.inl (Or.inl h)
  · rcases le_total a.symbol b.symbol with hs | hs
    · exact Or.inl (Or.inr ⟨h, hs⟩)
    · exact Or.inr (Or.inr ⟨h.symm, hs⟩)
  · exact Or.inr (Or.inl h)

/-- No key of the deduplicated output lies in the seen-key accumulator. -/
theorem dropDupAux_key_not_mem (l : List PriceRec) :
    ∀ (seen : List (String × String)), ∀ r ∈ dropDupAux seen l, recKey r ∉ seen := by
  induction l with
  | nil => intro seen r hr; simp [dropDupAux] at hr
  | cons a rs ih =>
    intro seen r hr
    by_cases h : recKey a ∈ seen
    · rw [dropDupAux, if_pos h] at hr
      exact ih seen r hr
    · rw [dropDupAux, if_neg h] at hr
      rcases List.mem_cons.mp hr with rfl | hr2
      · exact h
      · intro hmem
        exact ih (recKey a :: seen) r hr2 (List.mem_cons_of_mem _ hmem)

/-- Deduplication leaves no two records with the same `(time, symbol)` key. -/
theorem dropDupAux_pairwise (l : List PriceRec) :
    ∀ seen : List (String × String),
      (dropDupAux seen l).Pairwise (fun a b => recKey a ≠ recKey b) := by
  induction l with
  | nil => intro seen; simp [dropDupAux]
  | cons a rs ih =>
    intro seen
    by_cases h : recKey a ∈ seen
    · rw [dropDupAux, if_pos h]
      exact ih seen
    · rw [dropDupAux, if_neg h]
      refine List.pairwise_cons.mpr ⟨?_, ih _⟩
      intro b hb he
      exact dropDupAux_key_not_mem rs (recKey a :: seen) b hb
        (by rw [← he]; exact List.mem_cons_self _ _)

/-- C2: after the deduplication and sorting step of `main`, no two records
share the same `(time, symbol)` key, and the records are in ascending
lexicographic `(time, symbol)` order. -/
theorem C2_dedup_sorted (l : List PriceRec) :
    (dedupAndSort l).Pairwise (fun a b => recKey a ≠ recKey b) ∧
    (dedupAndSort l).Pairwise (fun a b => recLE a b = true) := by
  constructor
  · have hperm := List.mergeSort_perm (drop_duplicates l) recLE
    exact (hperm.pairwise_iff (fun h he => h he.symm)).mpr
      (dropDupAux_pairwise l [])
  · exact List.sorted_mergeSort recLE_trans recLE_total _

/-! ### Claim theorems: sampling rounds -/

/-- C7 (amended): for every sampling round whose batched request succeeds,
the round produces one record per requested symbol that is present in the
response payload, each carrying the round timestamp, the mapped symbol and
its USD price.  (The original claim promised one record per requested
symbol; a symbol absent from the payload is skipped, see the
counterexample.) -/
theorem C7_one_record_per_present_symbol (now : String) (data : Payload)
    (symbols : List String) (recs : List PriceRec)
    (h : processRound now data symbols = some recs) :
    recs.length = (symbols.filter (fun cid => (data.lookup cid).isSome)).length ∧
    ∀ r ∈ recs, r.time = now ∧ ∃ cid, cid ∈ symbols ∧ r.symbol = symbolOf cid ∧
      data.lookup cid = some { usd := some r.usd_price } := by
  induction symbols generalizing recs with
  | nil =>
    simp [processRound] at h
    subst h
    simp
  | cons cid rest ih =>
    cases hl : data.lookup cid with
    | none =>
      have h2 : processRound now data rest = some recs := by
        rw [processRound, hl] at h
        exact h
      obtain ⟨hlen, hmem⟩ := ih recs h2
      constructor
      · simp [List.filter_cons, hl, hlen]
      · intro r hr
        obtain ⟨ht, cid2, hc, hs, hlk⟩ := hmem r hr
        exact ⟨ht, cid2, List.mem_cons_of_mem _ hc, hs, hlk⟩
    | some entry =>
      cases hu : entry.usd with
      | none =>
        exfalso
        rw [processRound, hl] at h
        dsimp only at h
        rw [hu] at h
        exact Option.noConfusion h
      | some p =>
        have h2 : (processRound now data rest).map
            (fun recs => { time := now, symbol := symbolOf cid, usd_price := p } :: recs)
              = some recs := by
          rw [processRound, hl] at h
          dsimp only at h
          rw [hu] at h
          exact h
        rw [Option.map_eq_some'] at h2
        obtain ⟨recs2, hrest, hcons⟩ := h2
        obtain ⟨hlen, hmem⟩ := ih recs2 hrest
        subst hcons
        constructor
        · simp [List.filter_cons, hl, hlen]
        · intro r hr
          rcases List.mem_cons.mp hr with rfl | hr2
          · refine ⟨rfl, cid, List.mem_cons_self _ _, rfl, ?_⟩
            rw [hl]
            cases entry with
            | mk u =>
              simp only [] at hu
              rw [hu]
          · obtain ⟨ht, cid2, hc, hs, hlk⟩ := hmem r hr2
            exact ⟨ht, cid2, List.mem_cons_of_mem _ hc, hs, hlk⟩

/-- Concrete instantiation of C7 (amended): a payload carrying all three
requested coins yields three records, one per requested symbol present. -/
theorem C7_one_record_per_present_symbol_witness :
    ([{ time := "t", symbol := "BTC", usd_price := 114000 },
      { time := "t", symbol := "ETH", usd_price := 4100 },
      { time := "t", symbol := "DOGE", usd_price := 1 }] : List PriceRec).length
      = (["bitcoin", "ethereum", "dogecoin"].filter
          (fun cid =>
            (([("bitcoin", { usd := some 114000 }), ("ethereum", { usd := some 4100 }),
               ("dogecoin", { usd := some 1 })] : Payload).lookup cid).isSome)).length :=
  (C7_one_record_per_present_symbol "t"
    [("bitcoin", { usd := some 114000 }), ("ethereum", { usd := some 4100 }),
     ("dogecoin", { usd := some 1 })]
    ["bitcoin", "ethereum", "dogecoin"]
    [{ time := "t", symbol := "BTC", usd_price := 114000 },
     { time := "t", symbol := "ETH", usd_price := 4100 },
     { time := "t", symbol := "DOGE", usd_price := 1 }] (by decide)).1

/-- C7 as frozen is false: a round whose batched request succeeds but whose
payload lacks two of the three requested symbols produces one record, not
one per requested symbol. -/
theorem C7_counterexample_missing_symbol :
    (processRound "t" [("bitcoin", { usd := some 114000 })]
        ["bitcoin", "ethereum", "dogecoin"]).map List.length = some 1 ∧
    (["bitcoin", "ethereum", "dogecoin"] : List String).length = 3 ∧
    (1 : Nat) ≠ 3 := by
  refine ⟨?_, by decide, by decide⟩
  rfl

/-- C8: a failed round (the `except` branch returning `None`) contributes
zero records: dropping it from the round sequence leaves the collected
record list unchanged, and the remaining rounds are still all processed. -/
theorem C8_failed_round_contributes_nothing
    (before after : List (Option (List PriceRec))) :
    collectSamples (before ++ none :: after) = collectSamples (before ++ after) := by
  simp only [collectSamples, List.foldl_append, List.foldl_cons]

/-- C9: if zero price records were collected over the whole run, `main`
writes no output files and reports failure; if at least one record was
collected — regardless of how many rounds failed — the run succeeds. -/
theorem C9_zero_records_no_output (current : Option (List PriceRec))
    (rounds : List (Option (List PriceRec))) :
    (mainCollected current rounds = [] →
      mainRun current rounds = { files := [], success := false }) ∧
    (mainCollected current rounds ≠ [] → (mainRun current rounds).success = true) := by
  constructor
  · intro h
    simp [mainRun, h]
  · intro h
    simp [mainRun, List.isEmpty_iff, h]

/-- Concrete instantiation of C9: an all-failed run writes nothing and
fails; a run with one collected record succeeds. -/
theorem C9_zero_records_no_output_witness :
    mainRun none [none, none, none] = { files := [], success := false } ∧
    (mainRun (some [{ time := "t", symbol := "BTC", usd_price := 114000 }]) [none]).success
      = true :=
  ⟨(C9_zero_records_no_output none [none, none, none]).1 (by decide),
   (C9_zero_records_no_output
      (some [{ time := "t", symbol := "BTC", usd_price := 114000 }]) [none]).2 (by decide)⟩

/-! ### Claim theorems: wind index and compass direction -/

/-- Round half to even never exceeds round half up. -/
theorem roundHalfEven_le (x : ℚ) : roundHalfEven x ≤ ⌊x + 1/2⌋ := by
  unfold roundHalfEven
  split_ifs with ht hp
  · have hx : x + 1/2 = (⌊x⌋ : ℚ) + 1 := by linarith [sub_eq_iff_eq_add.mp ht]
    rw [hx]
    rw [show ((⌊x⌋ : ℚ) + 1) = ((⌊x⌋ + 1 : ℤ) : ℚ) by push_cast; ring, Int.floor_intCast]
    omega
  · have hx : x + 1/2 = (⌊x⌋ : ℚ) + 1 := by linarith [sub_eq_iff_eq_add.mp ht]
    rw [hx]
    rw [show ((⌊x⌋ : ℚ) + 1) = ((⌊x⌋ + 1 : ℤ) : ℚ) by push_cast; ring, Int.floor_intCast]
  · exact le_refl _

/-- Round half to even is at least the floor. -/
theorem le_roundHalfEven (x : ℚ) : ⌊x⌋ ≤ roundHalfEven x := by
  unfold roundHalfEven
  split_ifs with ht hp
  · exact le_refl _
  · omega
  · exact Int.floor_le_floor (by linarith)

/-- Round half to even fixes the integers. -/
theorem roundHalfEven_intCast (n : ℤ) : roundHalfEven (n : ℚ) = n := by
  unfold roundHalfEven
  rw [Int.floor_intCast]
  rw [if_neg (by norm_num)]
  rw [Int.floor_eq_iff]
  constructor
  · norm_num
  · linarith

/-- Evaluation of round half to even away from a tie. -/
theorem roundHalfEven_eq {x : ℚ} {n : ℤ} (hlo : (n:ℚ) - 1/2 < x) (hhi : x < (n:ℚ) + 1/2) :
    roundHalfEven x = n := by
  unfold roundHalfEven
  rcases le_or_lt (n:ℚ) x with hge | hlt
  · have hf : ⌊x⌋ = n := by
      rw [Int.floor_eq_iff]
      exact ⟨hge, by linarith⟩
    rw [hf, if_neg (by intro hc; linarith [sub_eq_iff_eq_add.mp hc])]
    rw [Int.floor_eq_iff]
    constructor
    · linarith
    · linarith
  · have hf : ⌊x⌋ = n - 1 := by
      rw [Int.floor_eq_iff]
      constructor
      · push_cast; linarith
      · push_cast
        linarith
    rw [hf, if_neg (by intro hc; push_cast at hc; nlinarith [sub_eq_iff_eq_add.mp hc])]
    rw [Int.floor_eq_iff]
    constructor
    · linarith
    · linarith

/-- A nonpositive value rounds to a nonpositive value. -/
theorem pandasRound1_nonpos {x : ℚ} (h : x ≤ 0) : pandasRound1 x ≤ 0 := by
  unfold pandasRound1
  have h1 : roundHalfEven (x * 10) ≤ ⌊x * 10 + 1/2⌋ := roundHalfEven_le _
  have h2 : ⌊x * 10 + 1/2⌋ ≤ ⌊(0:ℚ) + 1/2⌋ := Int.floor_le_floor (by linarith)
  have h3 : ⌊(0:ℚ) + 1/2⌋ = 0 := by norm_num
  have h4 : roundHalfEven (x * 10) ≤ 0 := by omega
  have h5 : ((roundHalfEven (x * 10) : ℚ)) ≤ 0 := by exact_mod_cast h4
  linarith

/-- A nonnegative value rounds to a nonnegative value. -/
theorem pandasRound1_nonneg {x : ℚ} (h : 0 ≤ x) : 0 ≤ pandasRound1 x := by
  unfold pandasRound1
  have h1 : ⌊x * 10⌋ ≤ roundHalfEven (x * 10) := le_roundHalfEven _
  have h2 : (0:ℤ) ≤ ⌊x * 10⌋ := by
    rw [show (0:ℤ) = ⌊(0:ℚ)⌋ by norm_num]
    exact Int.floor_le_floor (by linarith)
  have h4 : (0:ℤ) ≤ roundHalfEven (x * 10) := by omega
  have h5 : (0:ℚ) ≤ ((roundHalfEven (x * 10) : ℚ)) := by exact_mod_cast h4
  linarith

/-- A value at most 100 rounds to at most 100. -/
theorem pandasRound1_le_100 {x : ℚ} (h : x ≤ 100) : pandasRound1 x ≤ 100 := by
  unfold pandasRound1
  have h1 : roundHalfEven (x * 10) ≤ ⌊x * 10 + 1/2⌋ := roundHalfEven_le _
  have h2 : ⌊x * 10 + 1/2⌋ ≤ ⌊(1000:ℚ) + 1/2⌋ := Int.floor_le_floor (by linarith)
  have h3 : ⌊(1000:ℚ) + 1/2⌋ = 1000 := by
    rw [show ((1000:ℚ)) = ((1000:ℤ):ℚ) by norm_num]
    rw [Int.floor_int_add]
    norm_num
  have h4 : roundHalfEven (x * 10) ≤ 1000 := by omega
  have h5 : ((roundHalfEven (x * 10) : ℚ)) ≤ 1000 := by exact_mod_cast h4
  linarith

/-- A value at least 100 rounds to at least 100. -/
theorem pandasRound1_ge_100 {x : ℚ} (h : 100 ≤ x) : 100 ≤ pandasRound1 x := by
  unfold pandasRound1
  have h1 : ⌊x * 10⌋ ≤ roundHalfEven (x * 10) := le_roundHalfEven _
  have h2 : (1000:ℤ) ≤ ⌊x * 10⌋ := by
    rw [show (1000:ℤ) = ⌊((1000:ℤ):ℚ)⌋ by rw [Int.floor_intCast]]
    exact Int.floor_le_floor (by push_cast; linarith)
  have h4 : (1000:ℤ) ≤ roundHalfEven (x * 10) := by omega
  have h5 : (1000:ℚ) ≤ ((roundHalfEven (x * 10) : ℚ)) := by exact_mod_cast h4
  linarith

/-- Rounding to one decimal fixes 0. -/
theorem pandasRound1_zero : pandasRound1 0 = 0 := by
  unfold pandasRound1
  rw [show ((0:ℚ) * 10) = ((0:ℤ):ℚ) by norm_num, roundHalfEven_intCast]
  norm_num

/-- Rounding to one decimal fixes 100. -/
theorem pandasRound1_100 : pandasRound1 100 = 100 := by
  unfold pandasRound1
  rw [show ((100:ℚ) * 10) = ((1000:ℤ):ℚ) by norm_num, roundHalfEven_intCast]
  norm_num

/-- C5: the derived wind index (round to one decimal, then clip to the range
0 to 100, as the code does) equals the spec formula (clip, then round) for
all speeds and gusts; for speed 20 and gusts 40 the index is 52.0. -/
theorem C5_wind_index (speed gusts : ℚ) :
    wind_index speed gusts = windIndexSpec speed gusts ∧ wind_index 20 40 = 52 := by
  constructor
  · unfold wind_index windIndexSpec clip
    set y := (speed * 0.7 + gusts * 0.3) / 50 * 100 with hy
    rcases le_total y 0 with h0 | h0
    · rw [min_eq_right (le_trans h0 (by norm_num)), max_eq_left h0, pandasRound1_zero]
      have hr := pandasRound1_nonpos h0
      rw [min_eq_right (le_trans hr (by norm_num)), max_eq_left hr]
    · rcases le_total y 100 with h1 | h1
      · rw [min_eq_right h1, max_eq_right h0]
        have ha := pandasRound1_nonneg h0
        have hb := pandasRound1_le_100 h1
        rw [min_eq_right hb, max_eq_right ha]
      · rw [min_eq_left h1, max_eq_right (by norm_num : (0:ℚ) ≤ 100), pandasRound1_100]
        have hr := pandasRound1_ge_100 h1
        rw [min_eq_left hr, max_eq_right (by norm_num : (0:ℚ) ≤ 100)]
  · unfold wind_index
    have hy : ((20:ℚ) * 0.7 + 40 * 0.3) / 50 * 100 = ((52:ℤ):ℚ) := by norm_num
    rw [hy]
    unfold pandasRound1
    rw [show (((52:ℤ):ℚ) * 10) = ((520:ℤ):ℚ) by norm_num, roundHalfEven_intCast]
    unfold clip
    norm_num

/-- C6: the compass label is the entry of the fixed 16-entry table at index
round(degrees / 22.5) mod 16; 10 degrees gives N, 100 degrees gives E, and
355 degrees gives N. -/
theorem C6_compass_direction :
    (∀ d : ℚ, get_wind_direction_name d =
      ["N", "NNE", "NE", "ENE", "E", "ESE", "SE", "SSE",
       "S", "SSW", "SW", "WSW", "W", "WNW", "NW", "NNW"].getD
        ((roundHalfEven (d / 22.5)) % 16).toNat "") ∧
    get_wind_direction_name 10 = "N" ∧
    get_wind_direction_name 100 = "E" ∧
    get_wind_direction_name 355 = "N" := by
  refine ⟨fun d => rfl, ?_, ?_, ?_⟩
  · unfold get_wind_direction_name
    rw [roundHalfEven_eq (n := 0) (by norm_num) (by norm_num)]
    rfl
  · unfold get_wind_direction_name
    rw [roundHalfEven_eq (n := 4) (by norm_num) (by norm_num)]
    rfl
  · unfold get_wind_direction_name
    rw [roundHalfEven_eq (n := 16) (by norm_num) (by norm_num)]
    rfl

/-! ### Claim theorems: summarization -/

/-- C4 (amended): whenever the joined first-three-sentence summary exceeds
300 characters, the returned summary is exactly 300 characters, the last 3
of which are the ellipsis marker.  (The original claim conditioned on the
article text exceeding 300 characters, which does not imply the joined
summary does, see the counterexample.) -/
theorem C4_truncated_summary_length (text : List Char)
    (h : 300 < (joinedSummary text 3).length) :
    (simple_summarize text 3).length = 300 ∧
    (simple_summarize text 3).drop 297 = "...".toList := by
  have htext : text ≠ [] := by
    intro he
    rw [he] at h
    have h0 : joinedSummary [] 3 = [] := rfl
    rw [h0] at h
    simp at h
  have hs : simple_summarize text 3 = (joinedSummary text 3).take 297 ++ "...".toList := by
    unfold simple_summarize
    rw [if_neg htext]
    simp only [if_pos h]
  have hlen : ((joinedSummary text 3).take 297).length = 297 := by
    rw [List.length_take]
    omega
  constructor
  · rw [hs, List.length_append, hlen]
    rfl
  · rw [hs, List.drop_left' hlen]

set_option maxRecDepth 8000 in
/-- Concrete instantiation of C4 (amended): a single 400-character sentence
is summarized to exactly 300 characters ending in the ellipsis marker. -/
theorem C4_truncated_summary_length_witness :
    300 < (joinedSummary (List.replicate 400 'x') 3).length ∧
    (simple_summarize (List.replicate 400 'x') 3).length = 300 ∧
    (simple_summarize (List.replicate 400 'x') 3).drop 297 = "...".toList :=
  have h : 300 < (joinedSummary (List.replicate 400 'x') 3).length := by decide
  ⟨h, (C4_truncated_summary_length (List.replicate 400 'x') h).1,
   (C4_truncated_summary_length (List.replicate 400 'x') h).2⟩

set_option maxRecDepth 4000 in
/-- C4 as frozen is false: an article text of 309 characters whose first
three sentences are short yields a 7-character summary, not a 300-character
one. -/
theorem C4_counterexample_short_sentences :
    300 < ("a. b. c. ".toList ++ List.replicate 300 'x').length ∧
    (simple_summarize ("a. b. c. ".toList ++ List.replicate 300 'x') 3).length ≠ 300 := by
  constructor
  · decide
  · decide

/-- C10: for every input text the summary is at most 300 characters, and its
content apart from the 3-character ellipsis tail — its first 297 characters —
is a prefix of the join of the first three sentences of the text. -/
theorem C10_summary_bounds (text : List Char) :
    (simple_summarize text 3).length ≤ 300 ∧
    (simple_summarize text 3).take 297 <+: joinedSummary text 3 := by
  by_cases he : text = []
  · subst he
    constructor
    · simp [simple_summarize]
    · simp [simple_summarize]
  · unfold simple_summarize
    rw [if_neg he]
    by_cases h : 300 < (joinedSummary text 3).length
    · simp only [if_pos h]
      have hlen : ((joinedSummary text 3).take 297).length = 297 := by
        rw [List.length_take]; omega
      constructor
      · rw [List.length_append, hlen]; rfl
      · rw [List.take_left' hlen]
        exact List.take_prefix _ _
    · simp only [if_neg h]
      constructor
      · omega
      · exact List.take_prefix _ _
